import Mathlib

/-!
# Verification of the redux-resource core (src/lib/resource.js, src/unnamed/part_000)

Shallow embedding of the resource layer: a JavaScript object is modelled as an
ordered association list with string keys (`JsMap`), object-spread as in-place
upsert folding, and the reducer / action factories / middleware branches of
`src/lib/resource.js` as Lean functions over that model.  Payload values that
the code passes through opaquely (attribute values, serialized data) are
modelled as string tokens.
-/

set_option autoImplicit false

/-! ## JavaScript object semantics: ordered string-keyed maps -/

/-- JS property lookup `m[k]`: first (unique, for well-formed objects) entry wins. -/
def JsMap.get {β : Type} : List (String × β) → String → Option β
  | [], _ => none
  | p :: t, k => if p.1 = k then some p.2 else JsMap.get t k

/-- JS property assignment / single-key spread `{...m, [k]: v}`: replace in place
if the key is present (keeping its position), otherwise append. -/
def JsMap.upsert {β : Type} : List (String × β) → String → β → List (String × β)
  | [], k, v => [(k, v)]
  | p :: t, k, v => if p.1 = k then (k, v) :: t else p :: JsMap.upsert t k v

/-- JS object spread `{...m, ...ps}`: fold every entry of `ps` into `m` in order. -/
def JsMap.spread {β : Type} (m ps : List (String × β)) : List (String × β) :=
  ps.foldl (fun acc p => JsMap.upsert acc p.1 p.2) m

/-- lodash `_.zipObject(pairs)`: build an object by assigning each pair in order. -/
def JsMap.zipObject {β : Type} (ps : List (String × β)) : List (String × β) :=
  JsMap.spread [] ps

/-- The value the key `k` would end up with after assigning every pair of `ps`
in order onto an object not containing `k`: the last matching pair wins. -/
def JsMap.lastWrite {β : Type} (ps : List (String × β)) (k : String) : Option β :=
  ps.foldl (fun acc p => if p.1 = k then some p.2 else acc) none

/-- The keys of an object, in order. -/
def JsMap.keys {β : Type} (m : List (String × β)) : List String := m.map Prod.fst

/-- Fallback choice `optOr o d`: `o` if it is `some`, otherwise the fallback `d`. -/
def optOr {β : Type} (o d : Option β) : Option β :=
  match o with
  | some v => some v
  | none => d

/-! ## Data model (§3 of the source's state shape) -/

/-- An entity / attribute bag: a JS object with opaque string-token values. -/
abbrev Obj := List (String × String)

/-- One `{id, attributes}` element of a `RECEIVE_MANY` action's `items` list. -/
structure RItem where
  id : String
  attributes : Obj
deriving DecidableEq

/-- The inner `action.action` of `SUCCEED`/`FAIL`/`AWAIT` actions: the triggering
action, of which the reducer uses only `.id`; the rest is opaque `payload`. -/
structure Trigger where
  id : String
  payload : String
deriving DecidableEq

/-- An `awaiting` entry `{id, resolve, reject}`; the callbacks are opaque tokens. -/
structure Waiter where
  id : String
  resolve : Nat
  reject : Nat
deriving DecidableEq

/-- The item map `state.items`, keyed by entity id. -/
abbrev ItemMap := List (String × Obj)

/-- The per-resource state slice `{items, awaiting, resolved}`. -/
structure RState where
  items : ItemMap
  awaiting : List Waiter
  resolved : List Trigger
deriving DecidableEq

/-- A dispatched action, as the union of the fields the reducer and middleware
read: `type`, `resource`, `id`, `action` (here `trigger`), `resolve`, `reject`,
`attributes`, `items`, `data`.  Fields irrelevant to a given action type carry
defaults, mirroring JS objects where absent fields are simply not read. -/
structure RAction where
  type : String
  resource : String
  id : String := ""
  trigger : Trigger := ⟨"", ""⟩
  resolve : Nat := 0
  reject : Nat := 0
  attributes : Obj := []
  items : List RItem := []
  data : Obj := []
deriving DecidableEq

/-! ## actionTypes (src/lib/resource.js lines 6–17) -/

def actionTypes.request : String := "RESOURCE_API_REQUEST"

def actionTypes.create : String := "RESOURCE_CREATE"

def actionTypes.get : String := "RESOURCE_GET"

def actionTypes.update : String := "RESOURCE_UPDATE"

def actionTypes.query : String := "RESOURCE_QUERY"

def actionTypes.receive : String := "RESOURCE_RECEIVE"

def actionTypes.receiveMany : String := "RESOURCE_RECEIVE_MANY"

def actionTypes.await : String := "RESOURCE_AWAIT_ACTION"

def actionTypes.fail : String := "RESOURCE_FAIL_ACTION"

def actionTypes.succeed : String := "RESOURCE_SUCCEED_ACTION"

/-! ## The reducer (src/lib/resource.js lines 61–114) -/

/-- The default state parameter `{items: {}, awaiting: [], resolved: []}`. -/
def Resource.initialState : RState := { items := [], awaiting := [], resolved := [] }

/-- The `_reducer` of src/lib/resource.js: filter on `action.resource`, then switch
on `action.type`.  `_.reject(state.awaiting, {id: action.action.id})` keeps the
waiters whose id differs; the `receive` entity is `{id: action.id,
...action.attributes}` (the spread comes last); `receiveMany` builds
`_.zipObject` of `[item.id, {id: item.id, ...item.attributes}]` pairs and
spreads it over `state.items`. -/
def Resource._reducer (name : String) (state : RState) (action : RAction) : RState :=
  if action.resource ≠ name then state
  else
    match action.type with
    | "RESOURCE_SUCCEED_ACTION" | "RESOURCE_FAIL_ACTION" =>
      { state with
        awaiting := state.awaiting.filter (fun w => w.id != action.trigger.id),
        resolved := state.resolved ++ [action.trigger] }
    | "RESOURCE_AWAIT_ACTION" =>
      { state with
        awaiting := state.awaiting ++
          [{ id := action.trigger.id, resolve := action.resolve, reject := action.reject }] }
    | "RESOURCE_RECEIVE" =>
      { state with
        items := JsMap.upsert state.items action.id
          (JsMap.spread [("id", action.id)] action.attributes) }
    | "RESOURCE_RECEIVE_MANY" =>
      let newItems := JsMap.zipObject (action.items.map
        (fun item => (item.id, JsMap.spread [("id", item.id)] item.attributes)))
      { state with items := JsMap.spread state.items newItems }
    | _ => state

/-- The `_reducer` of src/unnamed/part_000 (lines 47–98), embedded separately for
the equivalence claim: same resource filter, same switch, same transitions. -/
def Part000._reducer (name : String) (state : RState) (action : RAction) : RState :=
  if action.resource ≠ name then state
  else
    match action.type with
    | "RESOURCE_SUCCEED_ACTION" | "RESOURCE_FAIL_ACTION" =>
      { state with
        awaiting := state.awaiting.filter (fun w => w.id != action.trigger.id),
        resolved := state.resolved ++ [action.trigger] }
    | "RESOURCE_AWAIT_ACTION" =>
      { state with
        awaiting := state.awaiting ++
          [{ id := action.trigger.id, resolve := action.resolve, reject := action.reject }] }
    | "RESOURCE_RECEIVE" =>
      { state with
        items := JsMap.upsert state.items action.id
          (JsMap.spread [("id", action.id)] action.attributes) }
    | "RESOURCE_RECEIVE_MANY" =>
      let newItems := JsMap.zipObject (action.items.map
        (fun item => (item.id, JsMap.spread [("id", item.id)] item.attributes)))
      { state with items := JsMap.spread state.items newItems }
    | _ => state

/-! ## RAction factories (src/lib/resource.js lines 266–281) -/

/-- Factory `receive(id, attributes)` (lines 266–273). -/
def Resource.receive (name : String) (id : String) (attributes : Obj) : RAction :=
  { type := actionTypes.receive, resource := name, id := id, attributes := attributes }

/-- Factory `receiveMany(items)` (lines 275–281). -/
def Resource.receiveMany (name : String) (items : List RItem) : RAction :=
  { type := actionTypes.receiveMany, resource := name, items := items }

/-! ## Lemmas about the JS object model -/

theorem JsMap.get_upsert {β : Type} (m : List (String × β)) (k k' : String) (v : β) :
    JsMap.get (JsMap.upsert m k v) k' = if k = k' then some v else JsMap.get m k' := by
  induction m with
  | nil =>
    simp only [JsMap.upsert, JsMap.get]
  | cons p t ih =>
    by_cases h1 : p.1 = k
    · simp only [JsMap.upsert, h1, if_pos, JsMap.get]
      by_cases h2 : k = k' <;> simp [h1, h2, JsMap.get]
    · simp only [JsMap.upsert, h1, if_neg, ite_false, JsMap.get]
      by_cases h2 : p.1 = k'
      · have h3 : ¬ (k = k') := fun hk => h1 (h2.trans hk.symm)
        simp [h2, h3]
      · simp [h2, ih]

theorem JsMap.get_spread_fold {β : Type} (ps : List (String × β)) (m : List (String × β))
    (k : String) :
    JsMap.get (JsMap.spread m ps) k
      = ps.foldl (fun acc p => if p.1 = k then some p.2 else acc) (JsMap.get m k) := by
  induction ps generalizing m with
  | nil => rfl
  | cons p t ih =>
    show JsMap.get (JsMap.spread (JsMap.upsert m p.1 p.2) t) k = _
    rw [ih, JsMap.get_upsert]
    rfl

theorem JsMap.foldl_lastWrite_init {β : Type} (l : List (String × β)) (k : String)
    (i : Option β) :
    l.foldl (fun acc p => if p.1 = k then some p.2 else acc) i
      = optOr (JsMap.lastWrite l k) i := by
  induction l generalizing i with
  | nil => rfl
  | cons p t ih =>
    show t.foldl _ (if p.1 = k then some p.2 else i) = optOr (JsMap.lastWrite (p :: t) k) i
    have hlw : JsMap.lastWrite (p :: t) k
        = t.foldl (fun acc q => if q.1 = k then some q.2 else acc)
            (if p.1 = k then some p.2 else none) := rfl
    rw [hlw, ih, ih]
    by_cases h : p.1 = k
    · simp only [h, if_pos]
      cases JsMap.lastWrite t k <;> rfl
    · simp only [h, if_neg, ite_false]
      cases JsMap.lastWrite t k <;> rfl

theorem JsMap.get_spread {β : Type} (m ps : List (String × β)) (k : String) :
    JsMap.get (JsMap.spread m ps) k = optOr (JsMap.lastWrite ps k) (JsMap.get m k) := by
  rw [JsMap.get_spread_fold, JsMap.foldl_lastWrite_init]

theorem JsMap.lastWrite_append {β : Type} (xs ys : List (String × β)) (k : String) :
    JsMap.lastWrite (xs ++ ys) k = optOr (JsMap.lastWrite ys k) (JsMap.lastWrite xs k) := by
  unfold JsMap.lastWrite
  rw [List.foldl_append, JsMap.foldl_lastWrite_init]
  rfl

theorem JsMap.keys_upsert {β : Type} (m : List (String × β)) (k : String) (v : β) :
    JsMap.keys (JsMap.upsert m k v)
      = if k ∈ JsMap.keys m then JsMap.keys m else JsMap.keys m ++ [k] := by
  induction m with
  | nil => simp [JsMap.upsert, JsMap.keys]
  | cons p t ih =>
    by_cases h : p.1 = k
    · subst h
      simp [JsMap.upsert, JsMap.keys]
    · simp only [JsMap.upsert, h, if_neg, ite_false, JsMap.keys, List.map_cons]
      have hne : ¬ (k = p.1) := fun hc => h hc.symm
      by_cases h2 : k ∈ JsMap.keys t
      · simp only [JsMap.keys] at h2 ih
        simp [List.mem_cons, hne, h2, ih]
      · simp only [JsMap.keys] at h2 ih
        simp [List.mem_cons, hne, h2, ih]

theorem JsMap.mem_keys_upsert {β : Type} (m : List (String × β)) (k k' : String) (v : β) :
    k' ∈ JsMap.keys (JsMap.upsert m k v) ↔ k' = k ∨ k' ∈ JsMap.keys m := by
  rw [JsMap.keys_upsert]
  by_cases h : k ∈ JsMap.keys m
  · simp only [h, if_pos]
    constructor
    · exact Or.inr
    · rintro (h1 | h1)
      · exact h1 ▸ h
      · exact h1
  · simp [h, or_comm]

theorem JsMap.keys_nodup_upsert {β : Type} (m : List (String × β)) (k : String) (v : β)
    (h : (JsMap.keys m).Nodup) : (JsMap.keys (JsMap.upsert m k v)).Nodup := by
  rw [JsMap.keys_upsert]
  by_cases h1 : k ∈ JsMap.keys m
  · simp only [h1, if_pos]
    exact h
  · simp only [h1, if_neg, ite_false]
    rw [List.nodup_append]
    refine ⟨h, List.nodup_singleton k, ?_⟩
    intro a ha hb
    rw [List.mem_singleton] at hb
    exact h1 (hb ▸ ha)

theorem JsMap.upsert_upsert_same {β : Type} (m : List (String × β)) (k : String) (v₁ v : β) :
    JsMap.upsert (JsMap.upsert m k v₁) k v = JsMap.upsert m k v := by
  induction m with
  | nil => simp [JsMap.upsert]
  | cons p t ih =>
    by_cases h : p.1 = k
    · simp [JsMap.upsert, h]
    · simp [JsMap.upsert, h, ih]

theorem JsMap.upsert_comm {β : Type} (m : List (String × β)) (k k₂ : String) (v v₂ : β)
    (hne : k ≠ k₂) (hk : k ∈ JsMap.keys m) :
    JsMap.upsert (JsMap.upsert m k₂ v₂) k v = JsMap.upsert (JsMap.upsert m k v) k₂ v₂ := by
  induction m with
  | nil => simp [JsMap.keys] at hk
  | cons p t ih =>
    by_cases h1 : p.1 = k
    · have h2 : ¬ (p.1 = k₂) := fun hc => hne (h1.symm.trans hc)
      have h3 : ¬ (k₂ = k) := fun hc => hne hc.symm
      rw [show JsMap.upsert (p :: t) k₂ v₂ = p :: JsMap.upsert t k₂ v₂ by
            simp [JsMap.upsert, h2],
          show JsMap.upsert (p :: JsMap.upsert t k₂ v₂) k v = (k, v) :: JsMap.upsert t k₂ v₂ by
            simp [JsMap.upsert, h1],
          show JsMap.upsert (p :: t) k v = (k, v) :: t by simp [JsMap.upsert, h1],
          show JsMap.upsert ((k, v) :: t) k₂ v₂ = (k, v) :: JsMap.upsert t k₂ v₂ by
            simp [JsMap.upsert, hne]]
    · have hk' : k ∈ JsMap.keys t := by
        simp only [JsMap.keys, List.map_cons, List.mem_cons] at hk
        rcases hk with hc | hc
        · exact absurd hc.symm h1
        · exact hc
      by_cases h2 : p.1 = k₂
      · have h3 : ¬ (k = p.1) := fun hc => h1 hc.symm
        have h4 : ¬ (k₂ = k) := fun hc => hne hc.symm
        rw [show JsMap.upsert (p :: t) k₂ v₂ = (k₂, v₂) :: t by simp [JsMap.upsert, h2],
            show JsMap.upsert ((k₂, v₂) :: t) k v = (k₂, v₂) :: JsMap.upsert t k v by
              simp [JsMap.upsert, h4],
            show JsMap.upsert (p :: t) k v = p :: JsMap.upsert t k v by
              simp [JsMap.upsert, h1],
            show JsMap.upsert (p :: JsMap.upsert t k v) k₂ v₂
                = (k₂, v₂) :: JsMap.upsert t k v by simp [JsMap.upsert, h2]]
      · rw [show JsMap.upsert (p :: t) k₂ v₂ = p :: JsMap.upsert t k₂ v₂ by
              simp [JsMap.upsert, h2],
            show JsMap.upsert (p :: JsMap.upsert t k₂ v₂) k v
                = p :: JsMap.upsert (JsMap.upsert t k₂ v₂) k v by simp [JsMap.upsert, h1],
            show JsMap.upsert (p :: t) k v = p :: JsMap.upsert t k v by
              simp [JsMap.upsert, h1],
            show JsMap.upsert (p :: JsMap.upsert t k v) k₂ v₂
                = p :: JsMap.upsert (JsMap.upsert t k v) k₂ v₂ by simp [JsMap.upsert, h2],
            ih hk']

theorem JsMap.upsert_spread {β : Type} (t : List (String × β)) (m : List (String × β))
    (k : String) (v : β) (hk : k ∈ JsMap.keys m) (hkt : k ∉ JsMap.keys t) :
    JsMap.upsert (JsMap.spread m t) k v = JsMap.spread (JsMap.upsert m k v) t := by
  induction t generalizing m with
  | nil => rfl
  | cons q t' ih =>
    have hkq : k ≠ q.1 := by
      intro hc
      exact hkt (by simp [JsMap.keys, hc])
    have hkt' : k ∉ JsMap.keys t' := by
      intro hc
      exact hkt (by simp [JsMap.keys] at hc ⊢; exact Or.inr hc)
    show JsMap.upsert (JsMap.spread (JsMap.upsert m q.1 q.2) t') k v
        = JsMap.spread (JsMap.upsert (JsMap.upsert m k v) q.1 q.2) t'
    rw [ih (JsMap.upsert m q.1 q.2) ((JsMap.mem_keys_upsert m q.1 k q.2).mpr (Or.inr hk)) hkt',
      JsMap.upsert_comm m k q.1 v q.2 hkq hk]

theorem JsMap.spread_upsert {β : Type} (n : List (String × β)) (m : List (String × β))
    (k : String) (v : β) (hn : (JsMap.keys n).Nodup) :
    JsMap.spread m (JsMap.upsert n k v) = JsMap.upsert (JsMap.spread m n) k v := by
  induction n generalizing m with
  | nil => rfl
  | cons p t ih =>
    have hp : p.1 ∉ JsMap.keys t := by
      simp only [JsMap.keys, List.map_cons, List.nodup_cons] at hn
      exact hn.1
    have ht : (JsMap.keys t).Nodup := by
      simp only [JsMap.keys, List.map_cons, List.nodup_cons] at hn
      exact hn.2
    by_cases h : p.1 = k
    · rw [show JsMap.upsert (p :: t) k v = (k, v) :: t by simp [JsMap.upsert, h],
        show JsMap.spread m ((k, v) :: t) = JsMap.spread (JsMap.upsert m k v) t from rfl,
        show JsMap.spread m (p :: t) = JsMap.spread (JsMap.upsert m p.1 p.2) t from rfl,
        JsMap.upsert_spread t (JsMap.upsert m p.1 p.2) k v
          ((JsMap.mem_keys_upsert m p.1 k p.2).mpr (Or.inl h.symm)) (h ▸ hp)]
      subst h
      rw [JsMap.upsert_upsert_same]
    · rw [show JsMap.upsert (p :: t) k v = p :: JsMap.upsert t k v by simp [JsMap.upsert, h],
        show JsMap.spread m (p :: JsMap.upsert t k v)
            = JsMap.spread (JsMap.upsert m p.1 p.2) (JsMap.upsert t k v) from rfl,
        ih (JsMap.upsert m p.1 p.2) ht,
        show JsMap.spread m (p :: t) = JsMap.spread (JsMap.upsert m p.1 p.2) t from rfl]

theorem JsMap.spread_assoc {β : Type} (ps n m : List (String × β))
    (hn : (JsMap.keys n).Nodup) :
    JsMap.spread m (JsMap.spread n ps) = JsMap.spread (JsMap.spread m n) ps := by
  induction ps generalizing n m with
  | nil => rfl
  | cons q ps' ih =>
    show JsMap.spread m (JsMap.spread (JsMap.upsert n q.1 q.2) ps')
        = JsMap.spread (JsMap.spread m n) (q :: ps')
    rw [ih (JsMap.upsert n q.1 q.2) m (JsMap.keys_nodup_upsert n q.1 q.2 hn),
      JsMap.spread_upsert n m q.1 q.2 hn]
    rfl

theorem JsMap.spread_zipObject {β : Type} (m ps : List (String × β)) :
    JsMap.spread m (JsMap.zipObject ps) = JsMap.spread m ps := by
  unfold JsMap.zipObject
  rw [JsMap.spread_assoc ps [] m (by simp [JsMap.keys])]
  rfl

/-! ## Branch lemmas for the reducer -/

theorem Resource.reducer_not_mine (name : String) (s : RState) (a : RAction)
    (h : a.resource ≠ name) : Resource._reducer name s a = s := by
  unfold Resource._reducer
  rw [if_pos h]

theorem Resource.reducer_resolve_eq (name : String) (s : RState) (a : RAction)
    (hres : a.resource = name)
    (hty : a.type = actionTypes.succeed ∨ a.type = actionTypes.fail) :
    Resource._reducer name s a =
      { s with
        awaiting := s.awaiting.filter (fun w => w.id != a.trigger.id),
        resolved := s.resolved ++ [a.trigger] } := by
  unfold Resource._reducer
  rw [if_neg (by simp [hres])]
  rcases hty with h | h <;> rw [h] <;> rfl

theorem Resource.reducer_await_eq (name : String) (s : RState) (a : RAction)
    (hres : a.resource = name) (hty : a.type = actionTypes.await) :
    Resource._reducer name s a =
      { s with
        awaiting := s.awaiting ++
          [{ id := a.trigger.id, resolve := a.resolve, reject := a.reject }] } := by
  unfold Resource._reducer
  rw [if_neg (by simp [hres])]
  rw [hty]
  rfl

theorem Resource.reducer_receive_eq (name : String) (s : RState) (a : RAction)
    (hres : a.resource = name) (hty : a.type = actionTypes.receive) :
    Resource._reducer name s a =
      { s with
        items := JsMap.upsert s.items a.id (JsMap.spread [("id", a.id)] a.attributes) } := by
  unfold Resource._reducer
  rw [if_neg (by simp [hres])]
  rw [hty]
  rfl

theorem Resource.reducer_receiveMany_eq (name : String) (s : RState) (a : RAction)
    (hres : a.resource = name) (hty : a.type = actionTypes.receiveMany) :
    Resource._reducer name s a =
      { s with
        items := JsMap.spread s.items (JsMap.zipObject (a.items.map
          (fun item => (item.id, JsMap.spread [("id", item.id)] item.attributes)))) } := by
  unfold Resource._reducer
  rw [if_neg (by simp [hres])]
  rw [hty]
  rfl

theorem Resource.reducer_other_eq (name : String) (s : RState) (a : RAction)
    (hres : a.resource = name)
    (h1 : a.type ≠ actionTypes.succeed) (h2 : a.type ≠ actionTypes.fail)
    (h3 : a.type ≠ actionTypes.await) (h4 : a.type ≠ actionTypes.receive)
    (h5 : a.type ≠ actionTypes.receiveMany) :
    Resource._reducer name s a = s := by
  unfold Resource._reducer
  rw [if_neg (by simp [hres])]
  split
  all_goals first
    | rfl
    | (exact absurd (by assumption) h1)
    | (exact absurd (by assumption) h2)
    | (exact absurd (by assumption) h3)
    | (exact absurd (by assumption) h4)
    | (exact absurd (by assumption) h5)

theorem Resource.reducer_logs_eq (name : String) (s : RState) (a : RAction)
    (h1 : a.type ≠ actionTypes.succeed) (h2 : a.type ≠ actionTypes.fail)
    (h3 : a.type ≠ actionTypes.await) :
    (Resource._reducer name s a).awaiting = s.awaiting ∧
      (Resource._reducer name s a).resolved = s.resolved := by
  by_cases hres : a.resource = name
  · by_cases h4 : a.type = actionTypes.receive
    · rw [Resource.reducer_receive_eq name s a hres h4]
      exact ⟨rfl, rfl⟩
    · by_cases h5 : a.type = actionTypes.receiveMany
      · rw [Resource.reducer_receiveMany_eq name s a hres h5]
        exact ⟨rfl, rfl⟩
      · rw [Resource.reducer_other_eq name s a hres h1 h2 h3 h4 h5]
        exact ⟨rfl, rfl⟩
  · rw [Resource.reducer_not_mine name s a hres]
    exact ⟨rfl, rfl⟩

/-! ## Middleware request-rejection handler (src/lib/resource.js lines 208–220) -/

/-- An error-response object whose `json()` either parses (`some data`) or rejects. -/
structure ErrResponse where
  jsonOk : Option String
deriving DecidableEq

/-- A JS error value as the rejection handler sees it: a message, and possibly
a `.response` attached by the status-check stage. -/
structure JsError where
  message : String
  response : Option ErrResponse
deriving DecidableEq

/-- One dispatched `fail(trigger, response, error)` action (lines 236–244). -/
structure FailDispatch where
  trigger : RAction
  response : Option String
  error : Option JsError
deriving DecidableEq

/-- The TypeError raised by evaluating `error.response.json()` when `error` is
null or `error.response` is undefined. -/
def typeErrorNoResponse : JsError := { message := "TypeError", response := none }

/-- The FAIL dispatches emitted by the rejection path of the fetch chain in
`_middleware` (request case), in order.  The handler first dispatches
`fail(trigger, null, error)` when `!error || !error.response` — and then, with
no early return, evaluates `error.response.json()`: when no response exists
that evaluation throws a TypeError which the trailing `.catch` turns into a
second `fail(trigger, null, err)`; when a response exists, its parsed body (or
`null` on a parse failure) is dispatched with the original error. -/
def Resource.requestRejectionDispatches (trigger : RAction) (error : Option JsError) :
    List FailDispatch :=
  let guard : List FailDispatch :=
    if error.bind JsError.response = none then [⟨trigger, none, error⟩] else []
  match error.bind JsError.response with
  | none => guard ++ [⟨trigger, none, some typeErrorNoResponse⟩]
  | some r =>
    match r.jsonOk with
    | some d => guard ++ [⟨trigger, some d, error⟩]
    | none => guard ++ [⟨trigger, none, error⟩]

/-! ## Object-level view of `_createAction` and `update` (lines 228–234, 310–316) -/

/-- Factory core `_createAction(action) = {resource: ..., id: _.uniqueId(), ...action}` at the
JS-object level: the partial action's own fields spread over (and so override)
`resource` and the generated correlation id.  Field values that are non-string
payloads are modelled as opaque string tokens. -/
def Resource._createAction (name freshId : String) (action : Obj) : Obj :=
  JsMap.spread [("resource", name), ("id", freshId)] action

/-- Factory `update(id, data) = _createAction(...)` with partial action `{type: actionTypes.update, id: id, data: data}`
at the JS-object level, with `data` as an opaque token. -/
def Resource.updateObj (name freshId targetId dataTok : String) : Obj :=
  Resource._createAction name freshId
    [("type", "RESOURCE_UPDATE"), ("id", targetId), ("data", dataTok)]

/-! ## Middleware update branch (src/lib/resource.js lines 143–155) -/

/-- One synchronous dispatch of the update branch: the derived REQUEST (with its
trigger, method, body data, and resolved endpoint) or the optimistic RECEIVE. -/
inductive Dispatch where
  | request (trigger : RAction) (method : String) (data : Obj) (endpoint : String)
  | receive (id : String) (attributes : Obj)
deriving DecidableEq

/-- Default `getSingleUri(resource, spec) = endpoint + "/" + spec.id` (lines 39–41);
an absent `id` interpolates as the string `undefined`. -/
def Resource.getSingleUriDefault (endpoint : String) (spec : Obj) : String :=
  endpoint ++ "/" ++ ((JsMap.get spec "id").getD "undefined")

/-- The dispatches the update branch of `_middleware` emits synchronously, in
order: the derived PATCH `request` (endpoint built from `{...action.data,
id: action.id}`), then — when configured optimistic — `receive(action.id,
{...state.items[action.id], ...action.data})`. -/
def Resource.updateMiddlewareDispatches (endpoint : String) (optimistic : Bool)
    (stateItems : ItemMap) (a : RAction) : List Dispatch :=
  [Dispatch.request a "PATCH" a.data
      (Resource.getSingleUriDefault endpoint (JsMap.spread a.data [("id", a.id)]))]
    ++ (if optimistic then
          [Dispatch.receive a.id
            (JsMap.spread ((JsMap.get stateItems a.id).getD []) a.data)]
        else [])

/-! ## Received-entity events of a RECEIVE / RECEIVE_MANY action stream -/

/-- The `(id, attributes)` pairs a single action writes into `items`: one pair
for RECEIVE, the `items` list for RECEIVE_MANY, nothing otherwise. -/
def receiveEvents (a : RAction) : List (String × Obj) :=
  match a.type with
  | "RESOURCE_RECEIVE" => [(a.id, a.attributes)]
  | "RESOURCE_RECEIVE_MANY" => a.items.map (fun item => (item.id, item.attributes))
  | _ => []

/-- All `(id, attributes)` pairs of an action list, in dispatch order. -/
def eventsOf : List RAction → List (String × Obj)
  | [] => []
  | a :: rest => receiveEvents a ++ eventsOf rest

/-! ## Correlation-id bookkeeping for the awaiting/resolved invariant -/

/-- Does the reducer treat `a` as an AWAIT for this resource? -/
def matchesAwait (name : String) (a : RAction) : Bool :=
  decide (a.resource = name) && decide (a.type = actionTypes.await)

/-- Does the reducer treat `a` as a SUCCEED or FAIL for this resource? -/
def matchesResolution (name : String) (a : RAction) : Bool :=
  decide (a.resource = name) &&
    (decide (a.type = actionTypes.succeed) || decide (a.type = actionTypes.fail))

/-- The claim's freshness hypothesis, literally: every AWAIT (for this resource)
carries a correlation id that no earlier AWAIT carried. -/
def freshAwaitIds (name : String) (seen : List String) : List RAction → Bool
  | [] => true
  | a :: rest =>
    (!(matchesAwait name a) || !(decide (a.trigger.id ∈ seen))) &&
      freshAwaitIds name
        (if matchesAwait name a then seen ++ [a.trigger.id] else seen) rest

/-- The amended freshness hypothesis: every AWAIT (for this resource) carries a
correlation id that no earlier AWAIT carried and no earlier SUCCEED/FAIL
resolved. -/
def freshCorrelationIds (name : String) (seen : List String) : List RAction → Bool
  | [] => true
  | a :: rest =>
    (!(matchesAwait name a) || !(decide (a.trigger.id ∈ seen))) &&
      freshCorrelationIds name
        (if matchesAwait name a || matchesResolution name a then seen ++ [a.trigger.id]
         else seen) rest

/-- The §3 invariant: at most one waiter per correlation id in `awaiting`, and
no correlation id present in both `awaiting` and `resolved`. -/
def correlationInvariant (s : RState) : Prop :=
  (s.awaiting.map Waiter.id).Nodup ∧
    ∀ w ∈ s.awaiting, ∀ t ∈ s.resolved, w.id ≠ t.id

instance correlationInvariant.decidable (s : RState) :
    Decidable (correlationInvariant s) := by
  unfold correlationInvariant
  infer_instance

/-! ## Projection forms of the reducer branch lemmas -/

theorem Resource.reducer_receive_items (name : String) (s : RState) (a : RAction)
    (hres : a.resource = name) (hty : a.type = actionTypes.receive) :
    (Resource._reducer name s a).items
      = JsMap.upsert s.items a.id (JsMap.spread [("id", a.id)] a.attributes) := by
  rw [Resource.reducer_receive_eq name s a hres hty]

theorem Resource.reducer_receiveMany_items (name : String) (s : RState) (a : RAction)
    (hres : a.resource = name) (hty : a.type = actionTypes.receiveMany) :
    (Resource._reducer name s a).items
      = JsMap.spread s.items (JsMap.zipObject (a.items.map
          (fun item => (item.id, JsMap.spread [("id", item.id)] item.attributes)))) := by
  rw [Resource.reducer_receiveMany_eq name s a hres hty]

/-! ## Helper lemmas for the item-stream characterization -/

theorem foldl_lastwrite_map_rel (l : List RItem) (k : String) (g : Obj → Obj)
    (v : RItem → Obj) (hv : ∀ it : RItem, it.id = k → v it = g it.attributes) :
    ∀ acc : Option Obj,
      l.foldl (fun acc it => if it.id = k then some (v it) else acc) (acc.map g)
        = (l.foldl (fun acc it => if it.id = k then some it.attributes else acc) acc).map g := by
  intro acc
  induction l generalizing acc with
  | nil => rfl
  | cons it t ih =>
    simp only [List.foldl_cons]
    by_cases hk : it.id = k
    · rw [if_pos hk, if_pos hk, hv it hk]
      exact ih (some it.attributes)
    · rw [if_neg hk, if_neg hk]
      exact ih acc

theorem lastWrite_entity_pairs (l : List RItem) (k : String) :
    JsMap.lastWrite
        (l.map (fun it => (it.id, JsMap.spread [("id", it.id)] it.attributes))) k
      = (JsMap.lastWrite (l.map (fun it => (it.id, it.attributes))) k).map
          (fun attrs => JsMap.spread [("id", k)] attrs) := by
  unfold JsMap.lastWrite
  rw [List.foldl_map, List.foldl_map]
  exact foldl_lastwrite_map_rel l k (fun attrs => JsMap.spread [("id", k)] attrs)
    (fun it => JsMap.spread [("id", it.id)] it.attributes)
    (fun it hk => by subst hk; rfl) none

theorem optOr_map_optOr {β γ : Type} (g : β → γ) (o p : Option β) (d : Option γ) :
    optOr (o.map g) (optOr (p.map g) d) = optOr ((optOr o p).map g) d := by
  cases o <;> rfl

theorem reducer_receive_step_get (name : String) (s : RState) (a : RAction)
    (hres : a.resource = name)
    (hty : a.type = actionTypes.receive ∨ a.type = actionTypes.receiveMany) (k : String) :
    JsMap.get (Resource._reducer name s a).items k
      = optOr ((JsMap.lastWrite (receiveEvents a) k).map
            (fun attrs => JsMap.spread [("id", k)] attrs))
          (JsMap.get s.items k) := by
  rcases hty with h | h
  · have he : receiveEvents a = [(a.id, a.attributes)] := by
      unfold receiveEvents
      rw [h]
      rfl
    rw [Resource.reducer_receive_items name s a hres h, he, JsMap.get_upsert]
    by_cases hk : a.id = k
    · subst hk
      simp [JsMap.lastWrite, optOr]
    · simp [JsMap.lastWrite, hk, optOr]
  · have he : receiveEvents a = a.items.map (fun item => (item.id, item.attributes)) := by
      unfold receiveEvents
      rw [h]
      rfl
    rw [Resource.reducer_receiveMany_items name s a hres h, he, JsMap.spread_zipObject,
      JsMap.get_spread, lastWrite_entity_pairs a.items k]

theorem fold_receives_eq (name : String) (l : List RItem) :
    ∀ s : RState,
      (List.foldl (Resource._reducer name) s
          (l.map (fun it => Resource.receive name it.id it.attributes))).items
        = JsMap.spread s.items
            (l.map (fun it => (it.id, JsMap.spread [("id", it.id)] it.attributes))) ∧
      (List.foldl (Resource._reducer name) s
          (l.map (fun it => Resource.receive name it.id it.attributes))).awaiting
        = s.awaiting ∧
      (List.foldl (Resource._reducer name) s
          (l.map (fun it => Resource.receive name it.id it.attributes))).resolved
        = s.resolved := by
  induction l with
  | nil => intro s; exact ⟨rfl, rfl, rfl⟩
  | cons it t ih =>
    intro s
    have hstep : Resource._reducer name s (Resource.receive name it.id it.attributes)
        = { items := JsMap.upsert s.items it.id (JsMap.spread [("id", it.id)] it.attributes),
            awaiting := s.awaiting,
            resolved := s.resolved } :=
      Resource.reducer_receive_eq name s (Resource.receive name it.id it.attributes) rfl rfl
    have hfold : List.foldl (Resource._reducer name) s
        ((it :: t).map (fun it => Resource.receive name it.id it.attributes))
        = List.foldl (Resource._reducer name)
            (Resource._reducer name s (Resource.receive name it.id it.attributes))
            (t.map (fun it => Resource.receive name it.id it.attributes)) := rfl
    obtain ⟨h1, h2, h3⟩ :=
      ih (Resource._reducer name s (Resource.receive name it.id it.attributes))
    refine ⟨?_, ?_, ?_⟩
    · rw [hfold, h1, hstep]
      rfl
    · rw [hfold, h2, hstep]
    · rw [hfold, h3, hstep]

/-! ## Awaiting/resolved projections and the correlation invariant induction -/

theorem Resource.reducer_await_awaiting (name : String) (s : RState) (a : RAction)
    (hres : a.resource = name) (hty : a.type = actionTypes.await) :
    (Resource._reducer name s a).awaiting
      = s.awaiting ++ [{ id := a.trigger.id, resolve := a.resolve, reject := a.reject }] := by
  rw [Resource.reducer_await_eq name s a hres hty]

theorem Resource.reducer_await_resolved (name : String) (s : RState) (a : RAction)
    (hres : a.resource = name) (hty : a.type = actionTypes.await) :
    (Resource._reducer name s a).resolved = s.resolved := by
  rw [Resource.reducer_await_eq name s a hres hty]

theorem Resource.reducer_resolve_awaiting (name : String) (s : RState) (a : RAction)
    (hres : a.resource = name)
    (hty : a.type = actionTypes.succeed ∨ a.type = actionTypes.fail) :
    (Resource._reducer name s a).awaiting
      = s.awaiting.filter (fun w => w.id != a.trigger.id) := by
  rw [Resource.reducer_resolve_eq name s a hres hty]

theorem Resource.reducer_resolve_resolved (name : String) (s : RState) (a : RAction)
    (hres : a.resource = name)
    (hty : a.type = actionTypes.succeed ∨ a.type = actionTypes.fail) :
    (Resource._reducer name s a).resolved = s.resolved ++ [a.trigger] := by
  rw [Resource.reducer_resolve_eq name s a hres hty]

theorem resolution_step_facts (name : String) (s : RState) (a : RAction)
    (seen : List String)
    (hinv : correlationInvariant s)
    (haw : ∀ w ∈ s.awaiting, w.id ∈ seen)
    (hrs : ∀ t ∈ s.resolved, t.id ∈ seen)
    (hr : a.resource = name)
    (hsf : a.type = actionTypes.succeed ∨ a.type = actionTypes.fail) :
    correlationInvariant (Resource._reducer name s a) ∧
      (∀ w ∈ (Resource._reducer name s a).awaiting, w.id ∈ seen ++ [a.trigger.id]) ∧
      (∀ t ∈ (Resource._reducer name s a).resolved, t.id ∈ seen ++ [a.trigger.id]) := by
  have e1 := Resource.reducer_resolve_awaiting name s a hr hsf
  have e2 := Resource.reducer_resolve_resolved name s a hr hsf
  refine ⟨⟨?_, ?_⟩, ?_, ?_⟩
  · rw [e1]
    exact hinv.1.sublist ((List.filter_sublist s.awaiting).map Waiter.id)
  · intro w hw t ht
    rw [e1] at hw
    rw [e2] at ht
    rw [List.mem_filter] at hw
    rcases List.mem_append.mp ht with ht1 | ht1
    · exact hinv.2 w hw.1 t ht1
    · rw [List.mem_singleton] at ht1
      subst ht1
      exact bne_iff_ne.mp hw.2
  · intro w hw
    rw [e1] at hw
    rw [List.mem_filter] at hw
    exact List.mem_append_left _ (haw w hw.1)
  · intro t ht
    rw [e2] at ht
    rcases List.mem_append.mp ht with ht1 | ht1
    · exact List.mem_append_left _ (hrs t ht1)
    · rw [List.mem_singleton] at ht1
      subst ht1
      exact List.mem_append_right _ (List.mem_singleton_self _)

theorem fresh_fold_invariant (name : String) (acts : List RAction) :
    ∀ (seen : List String) (s : RState),
      freshCorrelationIds name seen acts = true →
      correlationInvariant s →
      (∀ w ∈ s.awaiting, w.id ∈ seen) →
      (∀ t ∈ s.resolved, t.id ∈ seen) →
      correlationInvariant (List.foldl (Resource._reducer name) s acts) := by
  induction acts with
  | nil =>
    intro seen s _ hinv _ _
    exact hinv
  | cons a rest ih =>
    intro seen s hfresh hinv haw hrs
    rw [show freshCorrelationIds name seen (a :: rest)
        = ((!(matchesAwait name a) || !(decide (a.trigger.id ∈ seen))) &&
            freshCorrelationIds name
              (if matchesAwait name a || matchesResolution name a
               then seen ++ [a.trigger.id] else seen) rest) from rfl,
      Bool.and_eq_true] at hfresh
    obtain ⟨hguard, htail⟩ := hfresh
    show correlationInvariant
      (List.foldl (Resource._reducer name) (Resource._reducer name s a) rest)
    by_cases hr : a.resource = name
    · by_cases hAw : a.type = actionTypes.await
      · have hma : matchesAwait name a = true := by
          simp [matchesAwait, hr, hAw]
        have hnotin : a.trigger.id ∉ seen := by
          rw [hma] at hguard
          simpa using hguard
        have hseen : (if matchesAwait name a || matchesResolution name a
            then seen ++ [a.trigger.id] else seen) = seen ++ [a.trigger.id] := by
          rw [hma]
          rfl
        rw [hseen] at htail
        have e1 := Resource.reducer_await_awaiting name s a hr hAw
        have e2 := Resource.reducer_await_resolved name s a hr hAw
        refine ih (seen ++ [a.trigger.id]) _ htail ⟨?_, ?_⟩ ?_ ?_
        · rw [e1, List.map_append, List.nodup_append]
          refine ⟨hinv.1, List.nodup_singleton _, ?_⟩
          intro x hx hx2
          rw [show ([{ id := a.trigger.id, resolve := a.resolve, reject := a.reject }]
                : List Waiter).map Waiter.id = [a.trigger.id] from rfl,
            List.mem_singleton] at hx2
          subst hx2
          obtain ⟨w, hw, hwid⟩ := List.mem_map.mp hx
          exact hnotin (hwid ▸ haw w hw)
        · intro w hw t ht
          rw [e1] at hw
          rw [e2] at ht
          rcases List.mem_append.mp hw with hw1 | hw1
          · exact hinv.2 w hw1 t ht
          · rw [List.mem_singleton] at hw1
            subst hw1
            intro hc
            apply hnotin
            rw [show ({ id := a.trigger.id, resolve := a.resolve, reject := a.reject }
                : Waiter).id = a.trigger.id from rfl] at hc
            rw [hc]
            exact hrs t ht
        · intro w hw
          rw [e1] at hw
          rcases List.mem_append.mp hw with hw1 | hw1
          · exact List.mem_append_left _ (haw w hw1)
          · rw [List.mem_singleton] at hw1
            subst hw1
            exact List.mem_append_right _ (List.mem_singleton_self _)
        · intro t ht
          rw [e2] at ht
          exact List.mem_append_left _ (hrs t ht)
      · by_cases hSu : a.type = actionTypes.succeed
        · have hma : matchesAwait name a = false := by
            simp [matchesAwait, hAw]
          have hmr : matchesResolution name a = true := by
            simp [matchesResolution, hr, hSu]
          have hseen : (if matchesAwait name a || matchesResolution name a
              then seen ++ [a.trigger.id] else seen) = seen ++ [a.trigger.id] := by
            rw [hma, hmr]
            rfl
          rw [hseen] at htail
          obtain ⟨hi, ha2, hr2⟩ :=
            resolution_step_facts name s a seen hinv haw hrs hr (Or.inl hSu)
          exact ih (seen ++ [a.trigger.id]) _ htail hi ha2 hr2
        · by_cases hFa : a.type = actionTypes.fail
          · have hma : matchesAwait name a = false := by
              simp [matchesAwait, hAw]
            have hmr : matchesResolution name a = true := by
              simp [matchesResolution, hr, hFa]
            have hseen : (if matchesAwait name a || matchesResolution name a
                then seen ++ [a.trigger.id] else seen) = seen ++ [a.trigger.id] := by
              rw [hma, hmr]
              rfl
            rw [hseen] at htail
            obtain ⟨hi, ha2, hr2⟩ :=
              resolution_step_facts name s a seen hinv haw hrs hr (Or.inr hFa)
            exact ih (seen ++ [a.trigger.id]) _ htail hi ha2 hr2
          · obtain ⟨e1, e2⟩ := Resource.reducer_logs_eq name s a hSu hFa hAw
            have hma : matchesAwait name a = false := by
              simp [matchesAwait, hAw]
            have hmr : matchesResolution name a = false := by
              simp [matchesResolution, hSu, hFa]
            have hseen : (if matchesAwait name a || matchesResolution name a
                then seen ++ [a.trigger.id] else seen) = seen := by
              rw [hma, hmr]
              rfl
            rw [hseen] at htail
            refine ih seen _ htail ⟨?_, ?_⟩ ?_ ?_
            · rw [e1]
              exact hinv.1
            · intro w hw t ht
              rw [e1] at hw
              rw [e2] at ht
              exact hinv.2 w hw t ht
            · intro w hw
              rw [e1] at hw
              exact haw w hw
            · intro t ht
              rw [e2] at ht
              exact hrs t ht
    · have hma : matchesAwait name a = false := by
        simp [matchesAwait, hr]
      have hmr : matchesResolution name a = false := by
        simp [matchesResolution, hr]
      have hseen : (if matchesAwait name a || matchesResolution name a
          then seen ++ [a.trigger.id] else seen) = seen := by
        rw [hma, hmr]
        rfl
      rw [hseen] at htail
      rw [Resource.reducer_not_mine name s a hr]
      exact ih seen s htail hinv haw hrs

theorem RState.ext_of (x y : RState) (h1 : x.items = y.items)
    (h2 : x.awaiting = y.awaiting) (h3 : x.resolved = y.resolved) : x = y := by
  cases x
  cases y
  cases h1
  cases h2
  cases h3
  rfl

/-! ## Claim theorems -/

/-- C1 counterexample: receiving entity "1" with attributes `{id: "2"}` stores
`{id: "2"}` under key "1" — the spread `{id: action.id, ...action.attributes}`
lets an attribute named "id" override the action id, contradicting the claim
that the action id always wins. -/
theorem receive_attribute_id_overrides_counterexample :
    JsMap.get ((Resource._reducer "posts" Resource.initialState
        (Resource.receive "posts" "1" [("id", "2")])).items) "1" = some [("id", "2")] ∧
      JsMap.get [("id", "2")] "id" ≠ some "1" := by
  decide

/-- C1 (amended): folding any sequence of RECEIVE / RECEIVE_MANY actions for the
configured resource yields an `items` mapping that, at every key, holds the
most-recently-received attributes spread over `{id: key}` (so an attribute
named "id" overrides the action id) for received ids, and the starting entry
for ids not received — i.e. the keys are exactly the union of the starting ids
and the received ids. -/
theorem receive_stream_items_characterization (name : String) (s : RState)
    (acts : List RAction)
    (h : ∀ a ∈ acts, a.resource = name ∧
      (a.type = actionTypes.receive ∨ a.type = actionTypes.receiveMany))
    (k : String) :
    JsMap.get (List.foldl (Resource._reducer name) s acts).items k
      = optOr ((JsMap.lastWrite (eventsOf acts) k).map
            (fun attrs => JsMap.spread [("id", k)] attrs))
          (JsMap.get s.items k) := by
  induction acts generalizing s with
  | nil => rfl
  | cons a rest ih =>
    have ha := h a (List.mem_cons_self a rest)
    have hrest : ∀ b ∈ rest, b.resource = name ∧
        (b.type = actionTypes.receive ∨ b.type = actionTypes.receiveMany) :=
      fun b hb => h b (List.mem_cons_of_mem a hb)
    show JsMap.get (List.foldl (Resource._reducer name)
        (Resource._reducer name s a) rest).items k = _
    rw [ih (Resource._reducer name s a) hrest,
      reducer_receive_step_get name s a ha.1 ha.2 k,
      show eventsOf (a :: rest) = receiveEvents a ++ eventsOf rest from rfl,
      JsMap.lastWrite_append]
    exact optOr_map_optOr _ _ _ _

/-- C1 witness: one RECEIVE for "1" followed by a RECEIVE_MANY for "1" and "2";
key "1" holds the most recent attributes. -/
theorem receive_stream_items_characterization_witness :
    JsMap.get (List.foldl (Resource._reducer "posts") Resource.initialState
        [Resource.receive "posts" "1" [("name", "x")],
         Resource.receiveMany "posts"
           [⟨"1", [("name", "y")]⟩, ⟨"2", [("name", "z")]⟩]]).items "1"
      = optOr ((JsMap.lastWrite (eventsOf
            [Resource.receive "posts" "1" [("name", "x")],
             Resource.receiveMany "posts"
               [⟨"1", [("name", "y")]⟩, ⟨"2", [("name", "z")]⟩]]) "1").map
            (fun attrs => JsMap.spread [("id", "1")] attrs))
          (JsMap.get Resource.initialState.items "1") :=
  receive_stream_items_characterization "posts" Resource.initialState
    [Resource.receive "posts" "1" [("name", "x")],
     Resource.receiveMany "posts" [⟨"1", [("name", "y")]⟩, ⟨"2", [("name", "z")]⟩]]
    (by decide) "1"

/-- C2 (code bug): when the network call rejects with an error carrying no
`.response`, the rejection handler dispatches the guarded
`fail(trigger, null, error)` but then — with no early return — still evaluates
`error.response.json()`, whose TypeError the trailing `.catch` converts into a
second `fail(trigger, null, err)`: two FAIL actions are dispatched, not exactly
one as the claim (and the spec's intended behavior) states. -/
theorem transport_error_dispatches_two_fails :
    Resource.requestRejectionDispatches
        { type := actionTypes.update, resource := "posts", id := "1" }
        (some { message := "NetworkError", response := none })
      = [{ trigger := { type := actionTypes.update, resource := "posts", id := "1" },
           response := none,
           error := some { message := "NetworkError", response := none } },
         { trigger := { type := actionTypes.update, resource := "posts", id := "1" },
           response := none,
           error := some typeErrorNoResponse }] ∧
      (Resource.requestRejectionDispatches
          { type := actionTypes.update, resource := "posts", id := "1" }
          (some { message := "NetworkError", response := none })).length = 2 := by
  decide

/-- C3 counterexample: `update("e1", data)` with fresh correlation id "corr7"
returns an action whose single `id` field is the target id; the generated
correlation id appears nowhere — the two are not carried as distinct fields. -/
theorem update_single_id_field_counterexample :
    Resource.updateObj "posts" "corr7" "e1" "d0"
        = [("resource", "posts"), ("id", "e1"), ("type", "RESOURCE_UPDATE"),
           ("data", "d0")] ∧
      (JsMap.keys (Resource.updateObj "posts" "corr7" "e1" "d0")).count "id" = 1 ∧
      ∀ p ∈ Resource.updateObj "posts" "corr7" "e1" "d0", p.2 ≠ "corr7" := by
  decide

/-- C3 (amended): `update(id, data)` returns an action with type UPDATE, the
resource name, `data`, and a single `id` field equal to the target entity id —
the spread in `_createAction` overwrites the freshly generated correlation id
with the target id. -/
theorem update_action_amended (name freshId targetId dataTok : String) :
    Resource.updateObj name freshId targetId dataTok
      = [("resource", name), ("id", targetId), ("type", "RESOURCE_UPDATE"),
         ("data", dataTok)] := by
  rfl

/-- C4: when a correlation id is awaited and not yet resolved, processing a
SUCCEED or FAIL whose `action.action.id` equals it removes every matching
waiter from `awaiting` and appends the trigger, which then occurs exactly once
in `resolved`. -/
theorem succeed_fail_moves_waiter_to_resolved (name : String) (s : RState) (a : RAction)
    (hres : a.resource = name)
    (hty : a.type = actionTypes.succeed ∨ a.type = actionTypes.fail)
    (hwait : ∃ w ∈ s.awaiting, w.id = a.trigger.id)
    (hnew : ∀ t ∈ s.resolved, t.id ≠ a.trigger.id) :
    (∀ w ∈ (Resource._reducer name s a).awaiting, w.id ≠ a.trigger.id) ∧
      (Resource._reducer name s a).resolved.count a.trigger = 1 := by
  constructor
  · intro w hw
    rw [Resource.reducer_resolve_awaiting name s a hres hty] at hw
    rw [List.mem_filter] at hw
    exact bne_iff_ne.mp hw.2
  · rw [Resource.reducer_resolve_resolved name s a hres hty, List.count_append]
    have h0 : s.resolved.count a.trigger = 0 :=
      List.count_eq_zero.mpr (fun hm => hnew a.trigger hm rfl)
    rw [h0]
    simp

/-- C4 witness: waiter "1" awaiting, SUCCEED for "1" resolves it. -/
theorem succeed_fail_moves_waiter_to_resolved_witness :
    (∀ w ∈ (Resource._reducer "posts"
          { items := [], awaiting := [{ id := "1", resolve := 5, reject := 6 }],
            resolved := [] }
          { type := actionTypes.succeed, resource := "posts", id := "9",
            trigger := { id := "1", payload := "create" } }).awaiting,
        w.id ≠ "1") ∧
      (Resource._reducer "posts"
          { items := [], awaiting := [{ id := "1", resolve := 5, reject := 6 }],
            resolved := [] }
          { type := actionTypes.succeed, resource := "posts", id := "9",
            trigger := { id := "1", payload := "create" } }).resolved.count
        { id := "1", payload := "create" } = 1 :=
  succeed_fail_moves_waiter_to_resolved "posts"
    { items := [], awaiting := [{ id := "1", resolve := 5, reject := 6 }], resolved := [] }
    { type := actionTypes.succeed, resource := "posts", id := "9",
      trigger := { id := "1", payload := "create" } }
    rfl (Or.inl rfl) (by decide) (by decide)

/-- C5 counterexample: a SUCCEED for correlation id "1" (never awaited) followed
by an AWAIT of "1" satisfies the claim's freshness hypothesis (no id is awaited
twice) yet leaves id "1" in both `awaiting` and `resolved`. -/
theorem await_after_resolution_counterexample :
    freshAwaitIds "posts" []
        [{ type := actionTypes.succeed, resource := "posts", id := "8",
           trigger := { id := "1", payload := "t" } },
         { type := actionTypes.await, resource := "posts",
           trigger := { id := "1", payload := "u" }, resolve := 1, reject := 2 }] = true ∧
      ¬ correlationInvariant (List.foldl (Resource._reducer "posts")
        Resource.initialState
        [{ type := actionTypes.succeed, resource := "posts", id := "8",
           trigger := { id := "1", payload := "t" } },
         { type := actionTypes.await, resource := "posts",
           trigger := { id := "1", payload := "u" }, resolve := 1, reject := 2 }]) := by
  decide

/-- C5 (amended): when every AWAIT carries a correlation id that was neither
previously awaited nor previously resolved by a SUCCEED/FAIL, folding the
reducer from the initial state keeps at most one waiter per correlation id in
`awaiting` and no id simultaneously in `awaiting` and `resolved`. -/
theorem fresh_correlation_ids_invariant (name : String) (acts : List RAction)
    (h : freshCorrelationIds name [] acts = true) :
    correlationInvariant
      (List.foldl (Resource._reducer name) Resource.initialState acts) := by
  refine fresh_fold_invariant name acts [] Resource.initialState h ⟨?_, ?_⟩ ?_ ?_
  · exact List.nodup_nil
  · intro w hw
    exact absurd hw (List.not_mem_nil w)
  · intro w hw
    exact absurd hw (List.not_mem_nil w)
  · intro t ht
    exact absurd ht (List.not_mem_nil t)

/-- C5 witness: AWAIT "1" then SUCCEED "1" keeps the invariant. -/
theorem fresh_correlation_ids_invariant_witness :
    correlationInvariant (List.foldl (Resource._reducer "posts") Resource.initialState
      [{ type := actionTypes.await, resource := "posts",
         trigger := { id := "1", payload := "q" }, resolve := 1, reject := 2 },
       { type := actionTypes.succeed, resource := "posts", id := "8",
         trigger := { id := "1", payload := "q" } }]) :=
  fresh_correlation_ids_invariant "posts"
    [{ type := actionTypes.await, resource := "posts",
       trigger := { id := "1", payload := "q" }, resolve := 1, reject := 2 },
     { type := actionTypes.succeed, resource := "posts", id := "8",
       trigger := { id := "1", payload := "q" } }] (by decide)

/-- C6: with `optimistic` configured true, the update branch synchronously
dispatches (alongside the derived PATCH request) a RECEIVE for the target id
whose attributes are `{...state.items[action.id], ...action.data}` — at every
key the update's data wins over the current entity — and a FAIL action (the
rejection outcome) leaves `items` untouched: no automatic rollback. -/
theorem optimistic_update_dispatches_merged_receive (endpoint name : String)
    (stateItems : ItemMap) (a : RAction) (s : RState) (b : RAction) (k : String)
    (hb : b.type = actionTypes.fail) :
    Dispatch.receive a.id (JsMap.spread ((JsMap.get stateItems a.id).getD []) a.data)
        ∈ Resource.updateMiddlewareDispatches endpoint true stateItems a
      ∧ JsMap.get (JsMap.spread ((JsMap.get stateItems a.id).getD []) a.data) k
          = optOr (JsMap.lastWrite a.data k)
              (JsMap.get ((JsMap.get stateItems a.id).getD []) k)
      ∧ (Resource._reducer name s b).items = s.items := by
  refine ⟨?_, JsMap.get_spread _ _ _, ?_⟩
  · unfold Resource.updateMiddlewareDispatches
    simp
  · by_cases hbr : b.resource = name
    · rw [Resource.reducer_resolve_eq name s b hbr (Or.inr hb)]
    · rw [Resource.reducer_not_mine name s b hbr]

/-- C6 witness: optimistic update of entity "1" with `{name: "y"}` over stored
`{id: "1", name: "x"}`, and a FAIL that does not touch `items`. -/
theorem optimistic_update_dispatches_merged_receive_witness :
    Dispatch.receive "1" (JsMap.spread [("id", "1"), ("name", "x")] [("name", "y")])
        ∈ Resource.updateMiddlewareDispatches "api/things" true
            [("1", [("id", "1"), ("name", "x")])]
            { type := actionTypes.update, resource := "things", id := "1",
              data := [("name", "y")] }
      ∧ JsMap.get (JsMap.spread [("id", "1"), ("name", "x")] [("name", "y")]) "name"
          = optOr (JsMap.lastWrite [("name", "y")] "name")
              (JsMap.get [("id", "1"), ("name", "x")] "name")
      ∧ (Resource._reducer "things" Resource.initialState
            { type := actionTypes.fail, resource := "things",
              trigger := { id := "7", payload := "u" } }).items
          = Resource.initialState.items :=
  optimistic_update_dispatches_merged_receive "api/things" "things"
    [("1", [("id", "1"), ("name", "x")])]
    { type := actionTypes.update, resource := "things", id := "1",
      data := [("name", "y")] }
    Resource.initialState
    { type := actionTypes.fail, resource := "things",
      trigger := { id := "7", payload := "u" } }
    "name" rfl

/-- C7: one RECEIVE_MANY action equals the fold of the corresponding individual
RECEIVE actions in list order (and with an empty list it is the identity). -/
theorem receiveMany_eq_fold_of_receives (name : String) (s : RState) (l : List RItem) :
    Resource._reducer name s (Resource.receiveMany name l)
      = List.foldl (Resource._reducer name) s
          (l.map (fun it => Resource.receive name it.id it.attributes)) := by
  obtain ⟨h1, h2, h3⟩ := fold_receives_eq name l s
  refine RState.ext_of _ _ ?_ ?_ ?_
  · rw [Resource.reducer_receiveMany_items name s (Resource.receiveMany name l) rfl rfl,
      JsMap.spread_zipObject, h1]
    rfl
  · rw [h2, Resource.reducer_receiveMany_eq name s (Resource.receiveMany name l) rfl rfl]
  · rw [h3, Resource.reducer_receiveMany_eq name s (Resource.receiveMany name l) rfl rfl]

/-- C8: the reducer returns the state unchanged for any action whose `resource`
differs from the configured name, whatever its type. -/
theorem reducer_ignores_other_resources (name : String) (s : RState) (a : RAction)
    (h : a.resource ≠ name) : Resource._reducer name s a = s :=
  Resource.reducer_not_mine name s a h

/-- C8 witness: a RECEIVE for resource "comments" leaves the "posts" slice as is. -/
theorem reducer_ignores_other_resources_witness :
    Resource._reducer "posts" Resource.initialState
        { type := actionTypes.receive, resource := "comments", id := "1" }
      = Resource.initialState :=
  reducer_ignores_other_resources "posts" Resource.initialState
    { type := actionTypes.receive, resource := "comments", id := "1" } (by decide)

/-- C9: for a matching resource, any action whose type is none of SUCCEED, FAIL,
AWAIT, RECEIVE, RECEIVE_MANY (so REQUEST, CREATE, GET, QUERY, UPDATE and any
unknown tag) leaves the state unchanged. -/
theorem reducer_ignores_request_like_actions (name : String) (s : RState) (a : RAction)
    (hres : a.resource = name)
    (h1 : a.type ≠ actionTypes.succeed) (h2 : a.type ≠ actionTypes.fail)
    (h3 : a.type ≠ actionTypes.await) (h4 : a.type ≠ actionTypes.receive)
    (h5 : a.type ≠ actionTypes.receiveMany) :
    Resource._reducer name s a = s :=
  Resource.reducer_other_eq name s a hres h1 h2 h3 h4 h5

/-- C9 witness: an UPDATE action for the matching resource is state-neutral. -/
theorem reducer_ignores_request_like_actions_witness :
    Resource._reducer "posts" Resource.initialState
        { type := actionTypes.update, resource := "posts", id := "1",
          data := [("name", "y")] }
      = Resource.initialState :=
  reducer_ignores_request_like_actions "posts" Resource.initialState
    { type := actionTypes.update, resource := "posts", id := "1",
      data := [("name", "y")] }
    rfl (by decide) (by decide) (by decide) (by decide) (by decide)

/-- C10: the reducer of src/lib/resource.js and the reducer of
src/unnamed/part_000 compute the same state for every state and action. -/
theorem reducer_variants_extensionally_equal (name : String) (s : RState) (a : RAction) :
    Resource._reducer name s a = Part000._reducer name s a := rfl
